import Mathlib

/-!
# faceserver: upload and download handlers

A shallow embedding of `main.go` (handlers `upload`, `writeFile`, `getContentType`,
`download`) together with the parts of the Go standard library and of the host file
system that the handlers call.

Conventions of the embedding.

* A Go `string` and a Go `[]byte` are both byte sequences.  They are represented by a
  Lean `String` in which every character stands for one byte, so `[]byte(s)` is the
  identity and `len(s)` is `s.length`.  All results hold for arbitrary Lean strings.
* A Go `map[string]T` is represented by the list of its entries in the order in which the
  `range` loop of the run under consideration visits them; the keys are pairwise distinct.
* Logging (`log.Printf`, `fmt.Printf`, `spew.Dump`) has no effect on the response or on the
  file tree and is left out.
-/

set_option autoImplicit false

namespace Faceserver

/-! ## Go strings -/

/-- Test whether `sub` occurs as a contiguous block of `l`. -/
def hasInfix (sub : List Char) : List Char → Bool
  | [] => sub.isEmpty
  | c :: cs => sub.isPrefixOf (c :: cs) || hasInfix sub cs

/-- Go `strings.Contains(s, substr)`. -/
def strings_Contains (s substr : String) : Bool :=
  hasInfix substr.data s.data

/-- Split a character list at every occurrence of `sep`; the result is never empty. -/
def splitChars (sep : Char) : List Char → List (List Char)
  | [] => [[]]
  | c :: cs =>
    if c = sep then [] :: splitChars sep cs
    else
      match splitChars sep cs with
      | [] => [[c]]
      | h :: t => (c :: h) :: t

/-- Go `strings.Split(s, sep)` for a separator `sep` of one byte (the program only
splits at `"."`). -/
def strings_Split (s : String) (sep : Char) : List String :=
  (splitChars sep s.data).map String.mk

/-- Go `strings.ToLower(s)` on the ASCII letters.  (Go also lowers letters outside ASCII;
the only caller discards the value that depends on it.) -/
def strings_ToLower (s : String) : String :=
  String.mk (s.data.map Char.toLower)

/-- Go `strings.Join(elems, sep)`. -/
def strings_Join : List String → String → String
  | [], _ => ""
  | [a], _ => a
  | a :: b :: rest, sep => a ++ sep ++ strings_Join (b :: rest) sep

/-- Go `strconv.FormatInt(i, 10)` and the `%d` verb of `fmt.Sprintf`. -/
def strconv_FormatInt (i : Int) : String :=
  toString i

/-! ## path/filepath (Unix) -/

/-- One element of the path being cleaned, applied to the stack of elements kept so far
(innermost first).  Empty elements and `.` are dropped; `..` removes the element before it,
is kept at the front of a relative path and is dropped at the front of a rooted one. -/
def cleanStep (rooted : Bool) (stack : List (List Char)) (e : List Char) : List (List Char) :=
  if e = [] then stack
  else if e = ['.'] then stack
  else if e = ['.', '.'] then
    match stack with
    | [] => if rooted then [] else [e]
    | top :: rest =>
      if top = ['.', '.'] then (if rooted then stack else e :: stack) else rest
  else e :: stack

/-- Go `filepath.Clean(path)` with separator `/` and no volume names. -/
def filepath_Clean (path : String) : String :=
  if path = "" then "."
  else
    let rooted := path.data.head? == some '/'
    let stack := (splitChars '/' path.data).foldl (cleanStep rooted) []
    let body := strings_Join (stack.reverse.map String.mk) "/"
    if rooted then "/" ++ body
    else if stack.isEmpty then "." else body

/-- Go `filepath.Join(elem...)`: the elements from the first non-empty one on are joined
with `/` and the result is cleaned; the result is empty when every element is. -/
def filepath_Join (elem : List String) : String :=
  match elem.dropWhile (fun e => e == "") with
  | [] => ""
  | rest => filepath_Clean (strings_Join rest "/")

/-! ## Configuration -/

/-- Go `MaxFileSize = int64(20 * 1024 * 1024)`. -/
def MaxFileSize : Int := 20 * 1024 * 1024

/-- Go `RootDirectory = filepath.Join(".", "public", "uploads")`. -/
def RootDirectory : String := filepath_Join [".", "public", "uploads"]

/-! ## getContentType -/

/-- Go `getContentType(fileName)`, returning `(extension, contentType)`. -/
def getContentType (fileName : String) : String × String :=
  let arr := strings_Split fileName '.'
  let r : String × String :=
    if arr.length ≥ 2 then
      let extension := arr.getLastD ""
      let contentType :=
        match strings_ToLower extension with
        | "jpeg" | "jpe" | "jpg" => "image/jpeg"
        | "png" => "image/png"
        | "gif" => "image/gif"
        | "mp4" => "video/mpeg4"
        | "mp3" => "audio/mp3"
        | "wav" => "audio/wav"
        | "pdf" => "application/pdf"
        | "doc" => "application/msword"
        | _ => ""
      (extension, contentType)
    else ("", "")
  let extension := r.1
  let contentType := "application/octet-stream"
  (extension, contentType)

/-! ## net/url -/

/-- Go `ishex(c)`. -/
def ishex (c : Char) : Bool :=
  ('0' ≤ c && c ≤ '9') || ('a' ≤ c && c ≤ 'f') || ('A' ≤ c && c ≤ 'F')

/-- Go `unhex(c)`. -/
def unhex (c : Char) : Nat :=
  if '0' ≤ c && c ≤ '9' then c.toNat - '0'.toNat
  else if 'a' ≤ c && c ≤ 'f' then c.toNat - 'a'.toNat + 10
  else if 'A' ≤ c && c ≤ 'F' then c.toNat - 'A'.toNat + 10
  else 0

/-- Text of Go `EscapeError(frag).Error()`; `frag` is the offending `%` with at most the
two bytes after it. -/
def escapeError (frag : List Char) : String :=
  "invalid URL escape " ++ String.singleton '"' ++ String.mk (frag.take 3) ++ String.singleton '"'

/-- Byte-wise decoding done by Go `unescape(s, encodeQueryComponent)`: `%XY` with two hex
digits becomes the byte `XY`, `+` becomes a space, any other byte is kept; a `%` that is not
followed by two hex digits is an error. -/
def unescapeChars : List Char → Except String (List Char)
  | [] => .ok []
  | c :: rest =>
    if c = '%' then
      match rest with
      | a :: b :: rest2 =>
        if ishex a && ishex b then
          match unescapeChars rest2 with
          | .ok t => .ok (Char.ofNat (unhex a * 16 + unhex b) :: t)
          | .error e => .error e
        else .error (escapeError (c :: rest))
      | _ => .error (escapeError (c :: rest))
    else
      match unescapeChars rest with
      | .ok t => .ok ((if c = '+' then ' ' else c) :: t)
      | .error e => .error e

/-- Go `url.QueryUnescape(s)`. -/
def url_QueryUnescape (s : String) : Except String String :=
  match unescapeChars s.data with
  | .ok t => .ok (String.mk t)
  | .error e => .error e

/-! ## Host file tree

The file tree is a map from cleaned path names (relative to the working directory of the
server) to nodes.  It has no symbolic links, no permissions and no device faults: an
operation fails only because of the shape of the tree. -/

/-- A node of the file tree: a regular file with its bytes, or a directory. -/
inductive Node where
  | file (data : String)
  | dir
  deriving DecidableEq, Repr

/-- State of the file tree. -/
abbrev FS := String → Option Node

/-- The node that the path name `path` denotes, if any. -/
def FS.stat (fs : FS) (path : String) : Option Node :=
  fs (filepath_Clean path)

/-- The tree in which `path` denotes the node `n` and nothing else changes. -/
def FS.put (fs : FS) (path : String) (n : Node) : FS :=
  fun q => if q = filepath_Clean path then some n else fs q

/-- Path name of the directory that holds the entry `path`. -/
def parentDir (path : String) : String :=
  filepath_Clean (filepath_Clean path ++ "/..")

/-- Go `os.Mkdir(path, perm)`. -/
def os_Mkdir (path : String) (fs : FS) : Except String FS :=
  match fs.stat path with
  | some _ => .error ("mkdir " ++ path ++ ": file exists")
  | none =>
    match fs.stat (parentDir path) with
    | some .dir => .ok (fs.put path .dir)
    | some (.file _) => .error ("mkdir " ++ path ++ ": not a directory")
    | none => .error ("mkdir " ++ path ++ ": no such file or directory")

/-- The parent that Go `os.MkdirAll` extracts from `path`: trailing separators are removed,
then the last element; what is left keeps its final separator. -/
def mkdirAllParent (path : String) : String :=
  String.mk (((path.data.reverse.dropWhile (fun c => c == '/')).dropWhile
    (fun c => c != '/')).reverse)

/-- Go `os.MkdirAll(path, perm)` with a bound on the depth of the recursion: a fast path
when `path` exists, otherwise the parent is made first and `os.Mkdir` is called.  A failing
call is taken to leave the tree as it was. -/
def MkdirAllFuel : Nat → String → FS → Except String FS
  | 0, path, _ => .error ("mkdir " ++ path ++ ": recursion bound reached")
  | n + 1, path, fs =>
    match fs.stat path with
    | some .dir => .ok fs
    | some (.file _) => .error ("mkdir " ++ path ++ ": not a directory")
    | none =>
      let parent := mkdirAllParent path
      let made := if parent.length > 0 then MkdirAllFuel n parent fs else .ok fs
      match made with
      | .error e => .error e
      | .ok fs1 =>
        match os_Mkdir path fs1 with
        | .ok fs2 => .ok fs2
        | .error e =>
          match fs1.stat path with
          | some .dir => .ok fs1
          | _ => .error e

/-- Go `os.MkdirAll(path, 0755)`.  Every recursive call is on a strictly shorter path, so
the bound `path.length + 1` is never reached (`MkdirAllFuel_bound`). -/
def os_MkdirAll (path : String) (fs : FS) : Except String FS :=
  MkdirAllFuel (path.length + 1) path fs

/-- Go `os.Create(path)`: the file is created or truncated; the resulting descriptor is
identified with `path`. -/
def os_Create (path : String) (fs : FS) : Except String FS :=
  match fs.stat path with
  | some .dir => .error ("open " ++ path ++ ": is a directory")
  | some (.file _) => .ok (fs.put path (.file ""))
  | none =>
    match fs.stat (parentDir path) with
    | some .dir => .ok (fs.put path (.file ""))
    | some (.file _) => .error ("open " ++ path ++ ": not a directory")
    | none => .error ("open " ++ path ++ ": no such file or directory")

/-- Go `os.Open(path)`: the open file is the node found at `path`. -/
def os_Open (path : String) (fs : FS) : Except String Node :=
  match fs.stat path with
  | some n => .ok n
  | none =>
    match fs.stat (parentDir path) with
    | some (.file _) => .error ("open " ++ path ++ ": not a directory")
    | _ => .error ("open " ++ path ++ ": no such file or directory")

/-- Go `f.Stat()` followed by `info.Size()`; a directory reports the size of one block. -/
def File_Stat (f : Node) : Except String Int :=
  match f with
  | .file data => .ok data.length
  | .dir => .ok 4096

/-- A readable stream: the bytes it delivers and the read error that ends it, if it does
not end with EOF. -/
structure ReadCloser where
  data : String
  err : Option String

/-- Go `io.Copy(dst, src)` into the freshly created file `dst`: all bytes read are written,
and the read error of the source, if any, is returned. -/
def io_Copy (dst : String) (src : ReadCloser) (fs : FS) : Option String × FS :=
  (src.err, fs.put dst (.file src.data))

/-! ## net/http and mime/multipart -/

/-- Go `multipart.FileHeader`; `Open` is the outcome of `f.Open()`. -/
structure FileHeader where
  Filename : String
  Size : Int
  Open : Except String ReadCloser

/-- Go `multipart.Form`.  Both maps are given as entry lists in iteration order. -/
structure MultipartForm where
  Value : List (String × List String)
  File : List (String × List FileHeader)
  value_keys : (Value.map Prod.fst).Nodup
  file_keys : (File.map Prod.fst).Nodup

/-- The part of Go `http.Request` that the handlers read.  `contentType` is
`req.Header.Get("content-type")`; `ParseMultipartForm` is the outcome of
`req.ParseMultipartForm(MaxFileSize)`, the form being what it stores in
`req.MultipartForm`. -/
structure Request where
  RequestURI : String
  contentType : String
  ContentLength : Int
  ParseMultipartForm : Except String MultipartForm

/-- Go `http.ResponseWriter`: what has been sent so far.  The status is 200 unless
`WriteHeader` is called before the first `Write`. -/
structure ResponseWriter where
  status : Nat
  wroteHeader : Bool
  header : List (String × String)
  body : String

/-- A response writer on which nothing has been called yet. -/
def ResponseWriter.fresh : ResponseWriter :=
  ⟨200, false, [], ""⟩

/-- Go `w.WriteHeader(code)`. -/
def ResponseWriter.WriteHeader (w : ResponseWriter) (code : Nat) : ResponseWriter :=
  if w.wroteHeader then w else ⟨code, true, w.header, w.body⟩

/-- Go `w.Write(b)`. -/
def ResponseWriter.Write (w : ResponseWriter) (b : String) : ResponseWriter :=
  let w1 := w.WriteHeader 200
  ⟨w1.status, w1.wroteHeader, w1.header, w1.body ++ b⟩

/-- Go `w.Header().Set(key, value)`. -/
def ResponseWriter.Header_Set (w : ResponseWriter) (key value : String) : ResponseWriter :=
  ⟨w.status, w.wroteHeader, (key, value) :: w.header.filter (fun p => p.1 != key), w.body⟩

/-- Go `w.Header().Get(key)`, with `none` for an absent key. -/
def ResponseWriter.Header_Get (w : ResponseWriter) (key : String) : Option String :=
  w.header.lookup key

/-! ## upload -/

/-- Go `writeFile(subdir, filename, src)`; the result is the returned error and the new
file tree. -/
def writeFile (subdir filename : String) (src : ReadCloser) (fs : FS) : Option String × FS :=
  let path := filepath_Join [RootDirectory, subdir, filename]
  match os_Create path fs with
  | .error err => (some err, fs)
  | .ok fs1 =>
    match io_Copy path src fs1 with
    | (some err, fs2) => (some err, fs2)
    | (none, fs2) => (none, fs2)

/-- The loop `for key, values := range req.MultipartForm.Value` of `upload`.  Inside the
loop `req.MultipartForm.Value["subdir"]` is `values`, the entry being visited.  The result
is the body to write when `os.MkdirAll` fails, or the value of `subdir` and the file tree
after the loop. -/
def upload_rangeValue : List (String × List String) → String → FS → Except String (String × FS)
  | [], subdir, fs => .ok (subdir, fs)
  | (key, values) :: rest, subdir, fs =>
    if key = "subdir" ∧ values.length > 0 then
      let subdir1 := values.headD ""
      let dir := filepath_Join [RootDirectory, subdir1]
      match os_MkdirAll dir fs with
      | .error _ => .error ("mkdir fail, " ++ dir)
      | .ok fs1 => upload_rangeValue rest subdir1 fs1
    else upload_rangeValue rest subdir fs

/-- One iteration of the loop `for _, f := range files` of `upload`: the error that the
iteration assigns to `lastErr`, if any, and the file tree it leaves. -/
def upload_attachment (subdir : String) (f : FileHeader) (fs : FS) : Option String × FS :=
  match f.Open with
  | .error err => (some err, fs)
  | .ok fd => writeFile subdir f.Filename fd fs

/-- The loop `for _, f := range files` of `upload`, threading `lastErr` and the file
tree. -/
def upload_rangeFiles (subdir : String) :
    List FileHeader → Option String → FS → Option String × FS
  | [], lastErr, fs => (lastErr, fs)
  | f :: rest, lastErr, fs =>
    match upload_attachment subdir f fs with
    | (some err, fs1) => upload_rangeFiles subdir rest (some err) fs1
    | (none, fs1) => upload_rangeFiles subdir rest lastErr fs1

/-- The loop `for key, files := range req.MultipartForm.File` of `upload`. -/
def upload_rangeFile (subdir : String) :
    List (String × List FileHeader) → ResponseWriter → FS → ResponseWriter × FS
  | [], w, fs => (w, fs)
  | (key, files) :: rest, w, fs =>
    if key.length = 0 then (w.Write "no multipartform key", fs)
    else if files.length > 100 then
      (w.Write ("too many files: " ++ strconv_FormatInt files.length), fs)
    else
      match upload_rangeFiles subdir files none fs with
      | (some lastErr, fs1) => (w.Write ("upload failed, last err: " ++ lastErr), fs1)
      | (none, fs1) =>
        upload_rangeFile subdir rest
          (w.Write ("successful, " ++ strconv_FormatInt files.length ++ " files uploaded")) fs1

/-- The part of `upload` that follows a successful `ParseMultipartForm`. -/
def upload_form (w : ResponseWriter) (form : MultipartForm) (fs : FS) : ResponseWriter × FS :=
  match upload_rangeValue form.Value "" fs with
  | .error msg => (w.Write msg, fs)
  | .ok (subdir, fs1) =>
    if form.File.length = 0 then (w.Write "no file", fs1)
    else upload_rangeFile subdir form.File w fs1

/-- Go `upload(w, req)`. -/
def upload (w : ResponseWriter) (req : Request) (fs : FS) : ResponseWriter × FS :=
  let contentType := req.contentType
  let contentLen := req.ContentLength
  if !strings_Contains contentType "multipart/form-data" then
    (w.Write "content-type must be multipart/form-data", fs)
  else if contentLen ≥ MaxFileSize then
    (w.Write ("[E] file to large, length=" ++ strconv_FormatInt contentLen ++ ", limit "
      ++ strconv_FormatInt MaxFileSize), fs)
  else
    match req.ParseMultipartForm with
    | .error err => (w.Write ("ParseMultipartForm error:" ++ err), fs)
    | .ok form => upload_form w form fs

/-! ## download -/

/-- Go `download(w, req)`.  The result is `none` when the handler panics (the slice
`req.RequestURI[1:]` of an empty string). -/
def download (w : ResponseWriter) (req : Request) (fs : FS) : Option ResponseWriter :=
  if req.RequestURI = "/favicon.ico" then some w
  else if req.RequestURI.length < 1 then none
  else
    let filename := String.mk (req.RequestURI.data.drop 1)
    match url_QueryUnescape filename with
    | .error err => some (w.Write err)
    | .ok unescapedURL =>
      match os_Open (filepath_Join [RootDirectory, unescapedURL]) fs with
      | .error err => some ((w.WriteHeader 404).Write err)
      | .ok f =>
        match File_Stat f with
        | .error err => some (w.Write err)
        | .ok size =>
          let contentType := (getContentType filename).2
          let w1 := w.Header_Set "Content-Disposition" ("attachment; filename=" ++ filename)
          let w2 := w1.Header_Set "Content-Type" contentType
          let w3 := w2.Header_Set "Content-Length" (strconv_FormatInt size)
          match f with
          | .file data => some (w3.Write data)
          | .dir => some w3

/-! ## Vocabulary of the claims -/

/-- Two path names denote the same entry of the file tree. -/
def sameFile (p q : String) : Prop :=
  filepath_Clean p = filepath_Clean q

instance (p q : String) : Decidable (sameFile p q) :=
  inferInstanceAs (Decidable (filepath_Clean p = filepath_Clean q))

/-- The subdirectory a form asks for: the first value of its scalar field `subdir`, and the
empty string when there is no such value. -/
def MultipartForm.subdir (form : MultipartForm) : String :=
  match form.Value.lookup "subdir" with
  | some (d :: _) => d
  | _ => ""

/-- Outcome of the directory creation a form asks for: `os.MkdirAll` on the directory named
by the first value of `subdir`; the file tree is left alone when there is no such value. -/
def mkdirOutcome (form : MultipartForm) (fs : FS) : Except String FS :=
  match form.Value.lookup "subdir" with
  | some (d :: _) => os_MkdirAll (filepath_Join [RootDirectory, d]) fs
  | _ => .ok fs

/-- The request passes the validation of `upload` and parses to `form`. -/
def passesValidation (req : Request) (form : MultipartForm) : Prop :=
  strings_Contains req.contentType "multipart/form-data" = true
    ∧ req.ContentLength < MaxFileSize
    ∧ req.ParseMultipartForm = .ok form

/-- Destination of an attachment named `filename` under the subdirectory `subdir`. -/
def destination (subdir filename : String) : String :=
  filepath_Join [RootDirectory, subdir, filename]

/-- The message `upload` writes after a file field with `n` attachments went through. -/
def successMessage (n : Nat) : String :=
  "successful, " ++ strconv_FormatInt n ++ " files uploaded"

/-- The error with which each iteration of the attachment loop ends (`none` for an
attachment that was opened and written), in attachment order, starting from the tree `fs`. -/
def attachmentErrors (subdir : String) : List FileHeader → FS → List (Option String)
  | [], _ => []
  | f :: rest, fs =>
    (upload_attachment subdir f fs).1 :: attachmentErrors subdir rest (upload_attachment subdir f fs).2

/-- The file tree that the attachment loop leaves when it starts from the tree `fs`. -/
def filesState (subdir : String) : List FileHeader → FS → FS
  | [], fs => fs
  | f :: rest, fs => filesState subdir rest (upload_attachment subdir f fs).2

/-- All attachments of all file fields, in the order in which `upload` visits them. -/
def allFiles (fields : List (String × List FileHeader)) : List FileHeader :=
  fields.flatMap Prod.snd

/-- Concatenation of byte strings. -/
def concatAll : List String → String
  | [] => ""
  | a :: rest => a ++ concatAll rest

/-- First byte of a byte string. -/
def firstByte (s : String) : Option Char :=
  s.data.head?

/-! ## Concrete requests and file trees -/

/-- A file tree in which the storage root exists and is empty. -/
def rootTree : FS := fun q =>
  if q = "." ∨ q = "public" ∨ q = "public/uploads" then some .dir else none

/-- The answer of `ParseMultipartForm` to a request that is not a multipart form. -/
def notMultipart : Except String MultipartForm :=
  .error "request Content-Type isn't multipart/form-data"

/-- The attachment of the usage example of `main.go`. -/
def pngHeader : FileHeader := ⟨"Group 886.png", 7, .ok ⟨"PNGDATA", none⟩⟩

/-- The form of the usage example: `-F file=@... -F subdir=zhao`. -/
def pngForm : MultipartForm :=
  ⟨[("subdir", ["zhao"])], [("file", [pngHeader])], by decide, by decide⟩

/-- The upload request of the usage example. -/
def pngRequest : Request :=
  ⟨"/file/upload", "multipart/form-data; boundary=x", 300, .ok pngForm⟩

/-- The file tree after the upload of the usage example. -/
def pngTree : FS :=
  ((rootTree.put "public/uploads/zhao" .dir).put "public/uploads/zhao/Group 886.png"
    (.file "")).put "public/uploads/zhao/Group 886.png" (.file "PNGDATA")

/-- A download request for `uri`. -/
def getRequest (uri : String) : Request :=
  ⟨uri, "", 0, notMultipart⟩

/-- An upload request for `form` with Content-Type `ct` and declared length `len`. -/
def postRequest (ct : String) (len : Int) (form : MultipartForm) : Request :=
  ⟨"/file/upload", ct, len, .ok form⟩

/-- An attachment that opens and delivers `data`. -/
def goodHeader (filename data : String) : FileHeader :=
  ⟨filename, data.length, .ok ⟨data, none⟩⟩

/-- An attachment whose `Open` fails. -/
def badHeader (filename : String) : FileHeader :=
  ⟨filename, 3, .error "open /tmp/multipart-1: no such file or directory"⟩

/-- A form with the attachment `a+b.txt` for the subdirectory `zhao`. -/
def plusForm : MultipartForm :=
  ⟨[("subdir", ["zhao"])], [("file", [goodHeader "a+b.txt" "abc"])], by decide, by decide⟩

/-- A form with the attachment `100%.txt` for the subdirectory `zhao`. -/
def percentForm : MultipartForm :=
  ⟨[("subdir", ["zhao"])], [("file", [goodHeader "100%.txt" "abc"])], by decide, by decide⟩

/-- A form that asks for the subdirectory `a/b` and carries no file. -/
def dirOnlyForm : MultipartForm :=
  ⟨[("subdir", ["a/b"])], [], by decide, by decide⟩

/-- A form that asks for the subdirectory `zhao` and carries no file. -/
def zhaoOnlyForm : MultipartForm :=
  ⟨[("subdir", ["zhao"])], [], by decide, by decide⟩

/-- A file tree in which a file named `zhao` was uploaded to the storage root. -/
def blockedTree : FS :=
  rootTree.put "public/uploads/zhao" (.file "x")

/-- A form with two file fields of one attachment each. -/
def twoFieldForm : MultipartForm :=
  ⟨[], [("a", [goodHeader "a.txt" "aa"]), ("b", [goodHeader "b.txt" "bb"])],
    by decide, by decide⟩

/-- A form whose second file field carries 101 attachments. -/
def crowdedForm : MultipartForm :=
  ⟨[], [("a", [goodHeader "a.txt" "aa"]), ("b", List.replicate 101 (goodHeader "b.txt" "bb"))],
    by decide, by decide⟩

/-- A form with one file field: an attachment that is written, one that fails to open, and
one more that is written. -/
def mixedForm : MultipartForm :=
  ⟨[], [("file", [goodHeader "x.txt" "one", badHeader "bad.txt", goodHeader "y.txt" "two"])],
    by decide, by decide⟩

/-- A form with one file field: two attachments with the same file name and one that fails
to open. -/
def clashForm : MultipartForm :=
  ⟨[], [("file", [goodHeader "x.txt" "one", goodHeader "x.txt" "two", badHeader "bad.txt"])],
    by decide, by decide⟩

/-! ## Basic facts -/

theorem filepath_Clean_samples :
    filepath_Clean "a//b/./c/.." = "a/b"
      ∧ filepath_Clean "../../a/../../b/" = "../../../b"
      ∧ filepath_Clean "/../a/b/../././/c" = "/a/c"
      ∧ filepath_Clean "abc/.." = "."
      ∧ filepath_Clean "" = "."
      ∧ filepath_Join ["public/uploads", "", "x.png"] = "public/uploads/x.png"
      ∧ filepath_Join ["public/uploads", "../../etc", "passwd"] = "etc/passwd" := by
  decide

theorem getContentType_samples :
    getContentType "a.b.PNG" = ("PNG", "application/octet-stream")
      ∧ getContentType "README" = ("", "application/octet-stream") := by
  decide

theorem getContentType_snd (fileName : String) :
    (getContentType fileName).2 = "application/octet-stream" := rfl

theorem RootDirectory_eq : RootDirectory = "public/uploads" := by decide

theorem MaxFileSize_eq : MaxFileSize = 20971520 := by decide

theorem fresh_Write_body (b : String) : (ResponseWriter.fresh.Write b).body = b := by
  simp [ResponseWriter.Write, ResponseWriter.fresh, ResponseWriter.WriteHeader]

theorem WriteHeader_body (w : ResponseWriter) (code : Nat) :
    (w.WriteHeader code).body = w.body := by
  unfold ResponseWriter.WriteHeader
  split <;> rfl

theorem Write_body (w : ResponseWriter) (b : String) : (w.Write b).body = w.body ++ b := by
  simp [ResponseWriter.Write, WriteHeader_body]

theorem firstByte_append_left (a b : String) (c : Char) (h : firstByte a = some c) :
    firstByte (a ++ b) = some c := by
  unfold firstByte at *
  rw [String.data_append]
  cases hd : a.data with
  | nil => simp [hd] at h
  | cons x xs => simp [hd] at h ⊢; exact h

theorem ne_of_firstByte_ne (a b : String) (h : firstByte a ≠ firstByte b) : a ≠ b := by
  intro hab
  exact h (by rw [hab])

theorem hasInfix_append (sub a b : List Char) : hasInfix sub (a ++ (sub ++ b)) = true := by
  induction a with
  | nil =>
    cases h : sub ++ b with
    | nil =>
      have : sub = [] := (List.append_eq_nil.mp h).1
      simp [hasInfix, this]
    | cons c cs =>
      simp only [List.nil_append, h, hasInfix, Bool.or_eq_true]
      left
      rw [← h]
      simp
  | cons c a ih =>
    simp only [List.cons_append, hasInfix, Bool.or_eq_true]
    right
    exact ih

/-! ## Claims on validation -/

/-- C8: for every file name, `getContentType` returns the content type
`application/octet-stream`. -/
theorem getContentType_octet_stream (fileName : String) :
    (getContentType fileName).2 = "application/octet-stream" := by
  rfl

/-- C4: when the Content-Type header does not contain `multipart/form-data`, `upload`
writes exactly `content-type must be multipart/form-data` and leaves the file tree as it
was, whatever the rest of the request is. -/
theorem upload_rejects_content_type (req : Request) (fs : FS)
    (hct : strings_Contains req.contentType "multipart/form-data" = false) :
    (upload .fresh req fs).1.body = "content-type must be multipart/form-data"
      ∧ (upload .fresh req fs).2 = fs := by
  simp [upload, hct, fresh_Write_body]

theorem rangeFile_firstByte (subdir : String) (fields : List (String × List FileHeader)) :
    ∀ (w : ResponseWriter) (fs : FS) (c : Char), firstByte w.body = some c →
      firstByte (upload_rangeFile subdir fields w fs).1.body = some c := by
  induction fields with
  | nil => intro w fs c h; simpa [upload_rangeFile] using h
  | cons p rest ih =>
    intro w fs c h
    obtain ⟨key, files⟩ := p
    unfold upload_rangeFile
    split
    · simpa [Write_body] using firstByte_append_left _ _ c h
    · split
      · simpa [Write_body] using firstByte_append_left _ _ c h
      · split
        · simpa [Write_body] using firstByte_append_left _ _ c h
        · apply ih
          simpa [Write_body] using firstByte_append_left _ _ c h

theorem rangeValue_error_firstByte (l : List (String × List String)) :
    ∀ (subdir : String) (fs : FS) (msg : String),
      upload_rangeValue l subdir fs = .error msg → firstByte msg = some 'm' := by
  induction l with
  | nil => intro subdir fs msg h; simp [upload_rangeValue] at h
  | cons p rest ih =>
    intro subdir fs msg h
    obtain ⟨key, values⟩ := p
    unfold upload_rangeValue at h
    split at h
    · simp only at h
      split at h
      · injection h with h
        rw [← h]
        rfl
      · exact ih _ _ _ h
    · exact ih _ _ _ h

theorem upload_form_firstByte (form : MultipartForm) (fs : FS) :
    firstByte (upload_form .fresh form fs).1.body ≠ some '[' := by
  unfold upload_form
  split
  · rename_i msg h
    rw [fresh_Write_body, rangeValue_error_firstByte _ _ _ _ h]
    decide
  · rename_i subdir fs1 h
    split
    · rw [fresh_Write_body]; decide
    · rename_i hlen
      cases hf : form.File with
      | nil => simp [hf] at hlen
      | cons p rest =>
        obtain ⟨key, files⟩ := p
        unfold upload_rangeFile
        split
        · rw [fresh_Write_body]; decide
        · split
          · rw [fresh_Write_body]
            have : firstByte ("too many files: " ++ strconv_FormatInt ↑files.length) = some 't' := rfl
            rw [this]; decide
          · split
            · rename_i lastErr fs2 h2
              rw [fresh_Write_body]
              have : firstByte ("upload failed, last err: " ++ lastErr) = some 'u' := rfl
              rw [this]; decide
            · rw [rangeFile_firstByte _ _ _ _ 's']
              · decide
              · rw [fresh_Write_body]; rfl

/-- C5: with a Content-Type that contains `multipart/form-data`, `upload` answers with the
size rejection exactly when the declared length is at least `MaxFileSize` (which is
20971520); the rejection contains the decimal renderings of the declared length and of the
limit and leaves the file tree as it was, and a smaller length lets the request go on to
`ParseMultipartForm`. -/
theorem upload_size_check (req : Request) (fs : FS)
    (hct : strings_Contains req.contentType "multipart/form-data" = true) :
    MaxFileSize = 20971520
      ∧ ((upload .fresh req fs).1.body
            = "[E] file to large, length=" ++ strconv_FormatInt req.ContentLength ++ ", limit "
                ++ strconv_FormatInt MaxFileSize
          ↔ MaxFileSize ≤ req.ContentLength)
      ∧ (MaxFileSize ≤ req.ContentLength →
          strings_Contains (upload .fresh req fs).1.body (strconv_FormatInt req.ContentLength) = true
            ∧ strings_Contains (upload .fresh req fs).1.body (strconv_FormatInt MaxFileSize) = true
            ∧ (upload .fresh req fs).2 = fs)
      ∧ (req.ContentLength < MaxFileSize →
          upload .fresh req fs =
            match req.ParseMultipartForm with
            | .error err => (ResponseWriter.fresh.Write ("ParseMultipartForm error:" ++ err), fs)
            | .ok form => upload_form .fresh form fs) := by
  have hbig : MaxFileSize ≤ req.ContentLength →
      upload .fresh req fs = (ResponseWriter.fresh.Write ("[E] file to large, length="
        ++ strconv_FormatInt req.ContentLength ++ ", limit " ++ strconv_FormatInt MaxFileSize), fs) := by
    intro h
    simp [upload, hct, h]
  have hsmall : req.ContentLength < MaxFileSize →
      upload .fresh req fs =
        match req.ParseMultipartForm with
        | .error err => (ResponseWriter.fresh.Write ("ParseMultipartForm error:" ++ err), fs)
        | .ok form => upload_form .fresh form fs := by
    intro h
    have h2 : ¬ MaxFileSize ≤ req.ContentLength := not_le.mpr h
    simp only [upload, hct, ge_iff_le, h2]
    simp
  refine ⟨MaxFileSize_eq, ⟨?_, ?_⟩, ?_, hsmall⟩
  · intro hbody
    by_contra hlt
    have hlt2 : req.ContentLength < MaxFileSize := not_le.mp hlt
    have hne : firstByte (upload .fresh req fs).1.body ≠ some '[' := by
      rw [hsmall hlt2]
      split
      · rw [fresh_Write_body]
        rename_i err _
        have : firstByte ("ParseMultipartForm error:" ++ err) = some 'P' := rfl
        rw [this]; decide
      · exact upload_form_firstByte _ _
    apply hne
    rw [hbody]
    rfl
  · intro h
    rw [hbig h, fresh_Write_body]
  · intro h
    rw [hbig h, fresh_Write_body]
    refine ⟨?_, ?_, rfl⟩
    · unfold strings_Contains
      simp only [String.data_append, List.append_assoc]
      exact hasInfix_append _ _ _
    · unfold strings_Contains
      simp only [String.data_append, List.append_assoc]
      have := hasInfix_append (strconv_FormatInt MaxFileSize).data
        ("[E] file to large, length=".data ++ ((strconv_FormatInt req.ContentLength).data ++ ", limit ".data)) []
      simpa using this

/-! ## File tree facts -/

theorem stat_put_same (fs : FS) (path : String) (n : Node) :
    (fs.put path n).stat path = some n := by
  simp [FS.stat, FS.put]

theorem stat_put_other (fs : FS) (path q : String) (n : Node) (h : ¬ sameFile q path) :
    (fs.put path n).stat q = fs.stat q := by
  unfold sameFile at h
  simp [FS.stat, FS.put, h]

theorem os_Mkdir_ok (path : String) (fs fs1 : FS) (h : os_Mkdir path fs = .ok fs1) :
    fs1 = fs.put path .dir := by
  unfold os_Mkdir at h
  split at h
  · simp at h
  · split at h
    · injection h with h; exact h.symm
    · simp at h
    · simp at h

theorem MkdirAllFuel_ok (n : Nat) :
    ∀ (path : String) (fs fs1 : FS), MkdirAllFuel n path fs = .ok fs1 →
      fs1.stat path = some .dir := by
  induction n with
  | zero => intro path fs fs1 h; simp [MkdirAllFuel] at h
  | succ n ih =>
    intro path fs fs1 h
    unfold MkdirAllFuel at h
    split at h
    · rename_i hs
      injection h with h
      rw [← h]; exact hs
    · simp at h
    · simp only at h
      split at h
      · simp at h
      · rename_i fs2 hmade
        split at h
        · rename_i fs3 hmk
          injection h with h
          rw [← h, os_Mkdir_ok _ _ _ hmk]
          exact stat_put_same _ _ _
        · split at h
          · rename_i hs
            injection h with h
            rw [← h]; exact hs
          · simp at h

theorem mkdirAllParent_shorter (path : String) (h : (mkdirAllParent path).length > 0) :
    (mkdirAllParent path).length < path.length := by
  unfold mkdirAllParent at h ⊢
  simp only [String.length_mk, List.length_reverse] at h ⊢
  have hlen : path.length = path.data.reverse.length := by
    rw [List.length_reverse]
    rfl
  rw [hlen]
  cases hr : path.data.reverse with
  | nil => rw [hr] at h; simp at h
  | cons c t =>
    have h1 := (List.dropWhile_sublist (fun c => c != '/')
      (l := List.dropWhile (fun c => c == '/') t)).length_le
    have h2 := (List.dropWhile_sublist (fun c => c == '/') (l := t)).length_le
    have h3 := (List.dropWhile_sublist (fun c => c != '/') (l := t)).length_le
    by_cases hc : c = '/'
    · subst hc
      simp only [List.dropWhile_cons, beq_self_eq_true, if_true, List.length_cons]
      omega
    · have hb : (c == '/') = false := by simpa using hc
      have hb2 : (c != '/') = true := by simpa using hc
      simp only [List.dropWhile_cons, hb, hb2, if_true, List.length_cons]
      simp only [Bool.false_eq_true, if_false, List.dropWhile_cons, hb2, if_true]
      omega

/-- The bound of `MkdirAllFuel` plays no role once it exceeds the length of the path. -/
theorem MkdirAllFuel_bound (n : Nat) :
    ∀ (m : Nat) (path : String) (fs : FS), path.length < n → path.length < m →
      MkdirAllFuel n path fs = MkdirAllFuel m path fs := by
  induction n with
  | zero => intro m path fs h; omega
  | succ n ih =>
    intro m path fs hn hm
    cases m with
    | zero => omega
    | succ m =>
      have hrec : (if (mkdirAllParent path).length > 0
            then MkdirAllFuel n (mkdirAllParent path) fs else .ok fs)
          = (if (mkdirAllParent path).length > 0
            then MkdirAllFuel m (mkdirAllParent path) fs else .ok fs) := by
        split
        · rename_i hp
          have := mkdirAllParent_shorter path hp
          exact ih m _ fs (by omega) (by omega)
        · rfl
      simp only [MkdirAllFuel]
      rw [hrec]

theorem os_MkdirAll_ok (path : String) (fs fs1 : FS) (h : os_MkdirAll path fs = .ok fs1) :
    fs1.stat path = some .dir :=
  MkdirAllFuel_ok _ _ _ _ h

theorem writeFile_eq (subdir filename : String) (src : ReadCloser) (fs : FS) :
    writeFile subdir filename src fs =
      match os_Create (destination subdir filename) fs with
      | .error err => (some err, fs)
      | .ok fs1 => (src.err, fs1.put (destination subdir filename) (.file src.data)) := by
  show (match os_Create (filepath_Join [RootDirectory, subdir, filename]) fs with
    | .error err => (some err, fs)
    | .ok fs1 =>
      match io_Copy (filepath_Join [RootDirectory, subdir, filename]) src fs1 with
      | (some err, fs2) => (some err, fs2)
      | (none, fs2) => (none, fs2)) = _
  unfold destination io_Copy
  generalize os_Create (filepath_Join [RootDirectory, subdir, filename]) fs = r
  cases r with
  | error e => rfl
  | ok fs1 => cases h : src.err <;> simp [h]

theorem os_Create_ok (path : String) (fs fs1 : FS) (h : os_Create path fs = .ok fs1) :
    fs1 = fs.put path (.file "") ∧ fs.stat path ≠ some .dir := by
  unfold os_Create at h
  split at h
  · simp at h
  · rename_i hs
    injection h with h
    exact ⟨h.symm, by rw [hs]; simp⟩
  · rename_i hs
    split at h
    · injection h with h
      exact ⟨h.symm, by rw [hs]; simp⟩
    · simp at h
    · simp at h

theorem writeFile_frame (subdir filename : String) (src : ReadCloser) (fs : FS) (q : String)
    (h : ¬ sameFile q (destination subdir filename)) :
    (writeFile subdir filename src fs).2.stat q = fs.stat q := by
  rw [writeFile_eq]
  split
  · rfl
  · rename_i fs1 hc
    simp only
    rw [stat_put_other _ _ _ _ h, (os_Create_ok _ _ _ hc).1, stat_put_other _ _ _ _ h]

theorem writeFile_dir (subdir filename : String) (src : ReadCloser) (fs : FS) (q : String)
    (h : fs.stat q = some .dir) :
    (writeFile subdir filename src fs).2.stat q = some .dir := by
  by_cases hq : sameFile q (destination subdir filename)
  · rw [writeFile_eq]
    split
    · exact h
    · rename_i fs1 hc
      exfalso
      apply (os_Create_ok _ _ _ hc).2
      unfold FS.stat at h ⊢
      unfold sameFile at hq
      rw [← hq]; exact h
  · rw [writeFile_frame _ _ _ _ _ hq]; exact h

theorem writeFile_stored (subdir filename : String) (src : ReadCloser) (fs : FS)
    (h : (writeFile subdir filename src fs).1 = none) :
    (writeFile subdir filename src fs).2.stat (destination subdir filename)
      = some (.file src.data) := by
  rw [writeFile_eq] at h ⊢
  split at h
  · simp at h
  · simp only
    exact stat_put_same _ _ _

theorem attachment_frame (subdir : String) (f : FileHeader) (fs : FS) (q : String)
    (h : ∀ src, f.Open = .ok src → ¬ sameFile q (destination subdir f.Filename)) :
    (upload_attachment subdir f fs).2.stat q = fs.stat q := by
  unfold upload_attachment
  split
  · rfl
  · rename_i fd hopen
    exact writeFile_frame _ _ _ _ _ (h fd hopen)

theorem attachment_dir (subdir : String) (f : FileHeader) (fs : FS) (q : String)
    (h : fs.stat q = some .dir) :
    (upload_attachment subdir f fs).2.stat q = some .dir := by
  unfold upload_attachment
  split
  · exact h
  · exact writeFile_dir _ _ _ _ _ h

theorem attachment_stored (subdir : String) (f : FileHeader) (fs : FS) (src : ReadCloser)
    (hopen : f.Open = .ok src) (h : (upload_attachment subdir f fs).1 = none) :
    (upload_attachment subdir f fs).2.stat (destination subdir f.Filename)
      = some (.file src.data) := by
  unfold upload_attachment at h ⊢
  rw [hopen] at h ⊢
  exact writeFile_stored _ _ _ _ h

/-! ## The loops of upload -/

theorem pick_last (errs : List (Option String)) :
    ∀ le : Option String,
      errs.foldl (fun acc o => match o with | some e => some e | none => acc) le
        = match errs.reduceOption.getLast? with
          | some e => some e
          | none => le := by
  induction errs with
  | nil => intro le; simp
  | cons o errs ih =>
    intro le
    cases o with
    | none => simpa [List.reduceOption_cons_of_none] using ih le
    | some e =>
      simp only [List.foldl_cons, List.reduceOption_cons_of_some]
      rw [ih (some e), List.getLast?_cons]
      cases errs.reduceOption.getLast? <;> simp

theorem rangeFiles_eq (subdir : String) (l : List FileHeader) :
    ∀ (le : Option String) (fs : FS),
      upload_rangeFiles subdir l le fs
        = ((attachmentErrors subdir l fs).foldl
            (fun acc o => match o with | some e => some e | none => acc) le,
           filesState subdir l fs) := by
  induction l with
  | nil => intro le fs; rfl
  | cons f rest ih =>
    intro le fs
    unfold upload_rangeFiles
    simp only [attachmentErrors, filesState, List.foldl_cons]
    split
    · rename_i err fs1 h
      rw [ih, h]
    · rename_i fs1 h
      rw [ih, h]

theorem rangeFiles_none (subdir : String) (l : List FileHeader) (fs : FS) :
    upload_rangeFiles subdir l none fs
      = ((attachmentErrors subdir l fs).reduceOption.getLast?, filesState subdir l fs) := by
  rw [rangeFiles_eq, pick_last]
  cases (attachmentErrors subdir l fs).reduceOption.getLast? <;> rfl

theorem attachmentErrors_append (subdir : String) (a b : List FileHeader) :
    ∀ fs : FS, attachmentErrors subdir (a ++ b) fs
      = attachmentErrors subdir a fs ++ attachmentErrors subdir b (filesState subdir a fs) := by
  induction a with
  | nil => intro fs; rfl
  | cons f rest ih => intro fs; simp [attachmentErrors, filesState, ih]

theorem filesState_append (subdir : String) (a b : List FileHeader) :
    ∀ fs : FS, filesState subdir (a ++ b) fs = filesState subdir b (filesState subdir a fs) := by
  induction a with
  | nil => intro fs; rfl
  | cons f rest ih => intro fs; simp [filesState, ih]

theorem filesState_frame (subdir : String) (l : List FileHeader) (q : String) :
    ∀ fs : FS,
      (∀ f ∈ l, ∀ src, f.Open = .ok src → ¬ sameFile q (destination subdir f.Filename)) →
      (filesState subdir l fs).stat q = fs.stat q := by
  induction l with
  | nil => intro fs _; rfl
  | cons f rest ih =>
    intro fs h
    simp only [filesState]
    rw [ih _ (fun g hg => h g (List.mem_cons_of_mem _ hg))]
    exact attachment_frame _ _ _ _ (h f (List.mem_cons_self _ _))

theorem filesState_dir (subdir : String) (l : List FileHeader) (q : String) :
    ∀ fs : FS, fs.stat q = some .dir → (filesState subdir l fs).stat q = some .dir := by
  induction l with
  | nil => intro fs h; exact h
  | cons f rest ih =>
    intro fs h
    simp only [filesState]
    exact ih _ (attachment_dir _ _ _ _ h)

theorem filesState_stored (subdir : String) (pre post : List FileHeader) (g : FileHeader)
    (src : ReadCloser) (fs : FS) (hopen : g.Open = .ok src)
    (hok : (upload_attachment subdir g (filesState subdir pre fs)).1 = none)
    (hlater : ∀ f ∈ post, ∀ s, f.Open = .ok s →
      ¬ sameFile (destination subdir g.Filename) (destination subdir f.Filename)) :
    (filesState subdir (pre ++ g :: post) fs).stat (destination subdir g.Filename)
      = some (.file src.data) := by
  rw [filesState_append]
  simp only [filesState]
  rw [filesState_frame _ _ _ _ hlater]
  exact attachment_stored _ _ _ _ hopen hok

theorem errors_all_none (errs : List (Option String)) (h : ∀ o ∈ errs, o = none) :
    errs.reduceOption.getLast? = none := by
  induction errs with
  | nil => rfl
  | cons o rest ih =>
    have ho : o = none := h o (List.mem_cons_self _ _)
    subst ho
    rw [List.reduceOption_cons_of_none]
    exact ih (fun o ho => h o (List.mem_cons_of_mem _ ho))

theorem length_ne_zero_of_ne_empty (key : String) (h : key ≠ "") : ¬ key.length = 0 := by
  intro h0
  apply h
  apply String.ext
  exact List.length_eq_zero.mp h0

theorem rangeFile_cons (subdir key : String) (files : List FileHeader)
    (rest : List (String × List FileHeader)) (w : ResponseWriter) (fs : FS) :
    upload_rangeFile subdir ((key, files) :: rest) w fs =
      if key.length = 0 then (w.Write "no multipartform key", fs)
      else if files.length > 100 then
        (w.Write ("too many files: " ++ strconv_FormatInt files.length), fs)
      else
        match upload_rangeFiles subdir files none fs with
        | (some lastErr, fs1) => (w.Write ("upload failed, last err: " ++ lastErr), fs1)
        | (none, fs1) => upload_rangeFile subdir rest (w.Write (successMessage files.length)) fs1 := by
  rfl

theorem rangeFile_success (subdir : String) (pre : List (String × List FileHeader)) :
    ∀ (post : List (String × List FileHeader)) (w : ResponseWriter) (fs : FS),
      (∀ p ∈ pre, p.1 ≠ "" ∧ p.2.length ≤ 100) →
      (∀ o ∈ attachmentErrors subdir (allFiles pre) fs, o = none) →
      upload_rangeFile subdir (pre ++ post) w fs
        = upload_rangeFile subdir post
            (pre.foldl (fun w p => w.Write (successMessage p.2.length)) w)
            (filesState subdir (allFiles pre) fs) := by
  induction pre with
  | nil => intro post w fs _ _; rfl
  | cons p rest ih =>
    intro post w fs hshape herr
    obtain ⟨key, files⟩ := p
    have hk := hshape (key, files) (List.mem_cons_self _ _)
    have hall : allFiles ((key, files) :: rest) = files ++ allFiles rest := by
      simp [allFiles]
    rw [hall, attachmentErrors_append] at herr
    have h1 : ∀ o ∈ attachmentErrors subdir files fs, o = none :=
      fun o ho => herr o (List.mem_append_left _ ho)
    have h2 : ∀ o ∈ attachmentErrors subdir (allFiles rest) (filesState subdir files fs), o = none :=
      fun o ho => herr o (List.mem_append_right _ ho)
    rw [hall, filesState_append, List.cons_append, rangeFile_cons]
    rw [if_neg (length_ne_zero_of_ne_empty key hk.1), if_neg (by simpa using hk.2)]
    rw [rangeFiles_none, errors_all_none _ h1]
    simp only [List.foldl_cons]
    exact ih post _ _ (fun p hp => hshape p (List.mem_cons_of_mem _ hp)) h2

theorem foldl_Write_body (msgs : List String) :
    ∀ w : ResponseWriter, (msgs.foldl (fun w m => w.Write m) w).body = w.body ++ concatAll msgs := by
  induction msgs with
  | nil => intro w; simp [concatAll]
  | cons m rest ih =>
    intro w
    simp only [List.foldl_cons, concatAll]
    rw [ih, Write_body, String.append_assoc]

theorem foldl_success_body (pre : List (String × List FileHeader)) (w : ResponseWriter) :
    (pre.foldl (fun w p => w.Write (successMessage p.2.length)) w).body
      = w.body ++ concatAll (pre.map (fun p => successMessage p.2.length)) := by
  rw [← foldl_Write_body, List.foldl_map]

/-! ## The directory phase of upload -/

theorem rangeValue_absent (l : List (String × List String)) :
    ∀ (subdir : String) (fs : FS), "subdir" ∉ l.map Prod.fst →
      upload_rangeValue l subdir fs = .ok (subdir, fs) := by
  induction l with
  | nil => intro subdir fs _; rfl
  | cons p rest ih =>
    intro subdir fs h
    obtain ⟨key, values⟩ := p
    simp only [List.map_cons, List.mem_cons, not_or] at h
    unfold upload_rangeValue
    rw [if_neg (fun hk => h.1 hk.1.symm)]
    exact ih _ _ h.2

theorem rangeValue_eq (l : List (String × List String)) :
    ∀ (subdir : String) (fs : FS), (l.map Prod.fst).Nodup →
      upload_rangeValue l subdir fs =
        match l.lookup "subdir" with
        | some (d :: _) =>
          (match os_MkdirAll (filepath_Join [RootDirectory, d]) fs with
           | .error _ => .error ("mkdir fail, " ++ filepath_Join [RootDirectory, d])
           | .ok fs1 => .ok (d, fs1))
        | _ => .ok (subdir, fs) := by
  induction l with
  | nil => intro subdir fs _; rfl
  | cons p rest ih =>
    intro subdir fs hnd
    obtain ⟨key, values⟩ := p
    simp only [List.map_cons, List.nodup_cons] at hnd
    by_cases hk : key = "subdir"
    · subst hk
      rw [List.lookup_cons_self]
      unfold upload_rangeValue
      cases values with
      | nil =>
        simp only [List.length_nil, gt_iff_lt, lt_self_iff_false, and_false, if_false]
        exact rangeValue_absent _ _ _ hnd.1
      | cons d vs =>
        simp only [List.length_cons, gt_iff_lt, Nat.zero_lt_succ, and_self, if_true,
          List.headD_cons]
        cases hmk : os_MkdirAll (filepath_Join [RootDirectory, d]) fs with
        | error e => rfl
        | ok fs1 => exact rangeValue_absent _ _ _ hnd.1
    · unfold upload_rangeValue
      rw [if_neg (fun h => hk h.1)]
      rw [ih _ _ hnd.2]
      have : ("subdir" == key) = false := by
        simp only [beq_eq_false_iff_ne, ne_eq]
        exact fun h => hk h.symm
      rw [List.lookup_cons, this]

theorem upload_valid (w : ResponseWriter) (req : Request) (form : MultipartForm) (fs : FS)
    (hv : passesValidation req form) : upload w req fs = upload_form w form fs := by
  obtain ⟨hct, hlen, hparse⟩ := hv
  have h2 : ¬ MaxFileSize ≤ req.ContentLength := not_le.mpr hlen
  simp only [upload, hct, ge_iff_le, h2, hparse]
  simp

theorem upload_form_ok (w : ResponseWriter) (form : MultipartForm) (fs fs1 : FS)
    (hdir : mkdirOutcome form fs = .ok fs1) :
    upload_form w form fs =
      if form.File.length = 0 then (w.Write "no file", fs1)
      else upload_rangeFile form.subdir form.File w fs1 := by
  unfold upload_form
  rw [rangeValue_eq _ _ _ form.value_keys]
  unfold mkdirOutcome at hdir
  unfold MultipartForm.subdir
  cases hl : List.lookup "subdir" form.Value with
  | none =>
    rw [hl] at hdir
    injection hdir with hdir
    subst hdir
    rfl
  | some vs =>
    cases vs with
    | nil =>
      rw [hl] at hdir
      injection hdir with hdir
      subst hdir
      rfl
    | cons d t =>
      rw [hl] at hdir
      simp only at hdir ⊢
      rw [hdir]

theorem rangeFile_dir (subdir : String) (fields : List (String × List FileHeader)) (q : String) :
    ∀ (w : ResponseWriter) (fs : FS), fs.stat q = some .dir →
      (upload_rangeFile subdir fields w fs).2.stat q = some .dir := by
  induction fields with
  | nil => intro w fs h; exact h
  | cons p rest ih =>
    intro w fs h
    obtain ⟨key, files⟩ := p
    rw [rangeFile_cons, rangeFiles_none]
    split
    · exact h
    · split
      · exact h
      · cases (attachmentErrors subdir files fs).reduceOption.getLast? with
        | some e => exact filesState_dir _ _ _ _ h
        | none => exact ih _ _ (filesState_dir _ _ _ _ h)

theorem mkdirOutcome_of_lookup (form : MultipartForm) (fs : FS) (d : String) (vs : List String)
    (hsub : form.Value.lookup "subdir" = some (d :: vs)) :
    mkdirOutcome form fs = os_MkdirAll (filepath_Join [RootDirectory, d]) fs
      ∧ form.subdir = d := by
  unfold mkdirOutcome MultipartForm.subdir
  rw [hsub]
  exact ⟨rfl, rfl⟩

/-! ## Claims on upload -/

/-- C1: a request that passes validation and carries one file field with a non-empty name
and one attachment `f`, for which the directory creation, the opening of the attachment,
the creation of the destination and the copy all succeed, leaves a file with exactly the
bytes of the attachment at `join(RootDirectory, D, F)`, where `D` is the first value of the
field `subdir` (empty when absent) and `F` the file name, and is answered with
`successful, 1 files uploaded`. -/
theorem upload_single_attachment_stored (req : Request) (form : MultipartForm)
    (fs fs1 fs2 : FS) (key : String) (f : FileHeader) (src : ReadCloser)
    (hv : passesValidation req form)
    (hfile : form.File = [(key, [f])]) (hkey : key ≠ "")
    (hdir : mkdirOutcome form fs = .ok fs1)
    (hopen : f.Open = .ok src)
    (hcreate : os_Create (filepath_Join [RootDirectory, form.subdir, f.Filename]) fs1 = .ok fs2)
    (hcopy : src.err = none) :
    (upload .fresh req fs).2.stat (filepath_Join [RootDirectory, form.subdir, f.Filename])
        = some (.file src.data)
      ∧ (upload .fresh req fs).1.body = "successful, 1 files uploaded" := by
  have hatt : upload_attachment form.subdir f fs1
      = (none, fs2.put (destination form.subdir f.Filename) (.file src.data)) := by
    unfold upload_attachment
    rw [hopen]
    simp only
    rw [writeFile_eq]
    unfold destination
    rw [hcreate, hcopy]
  have hrun : upload .fresh req fs
      = (ResponseWriter.fresh.Write (successMessage 1),
         fs2.put (destination form.subdir f.Filename) (.file src.data)) := by
    rw [upload_valid _ _ _ _ hv, upload_form_ok _ _ _ _ hdir, hfile]
    simp only [List.length_singleton, one_ne_zero, if_false]
    rw [rangeFile_cons, if_neg (length_ne_zero_of_ne_empty key hkey)]
    simp only [List.length_singleton, gt_iff_lt, Nat.one_lt_ofNat.not_lt, if_false,
      upload_rangeFiles, hatt]
    rfl
  rw [hrun]
  exact ⟨stat_put_same _ _ _, by rw [fresh_Write_body]; decide⟩

/-- C7 (amended): for a request that passes validation and carries a scalar field `subdir`
with first value `d`, if `os.MkdirAll` succeeds then the directory `join(RootDirectory, d)`
exists after the request, whatever file fields the request carries; without any file field
the response is `no file`. -/
theorem upload_subdir_created (req : Request) (form : MultipartForm) (fs fs1 : FS)
    (d : String) (vs : List String)
    (hv : passesValidation req form)
    (hsub : form.Value.lookup "subdir" = some (d :: vs))
    (hmk : os_MkdirAll (filepath_Join [RootDirectory, d]) fs = .ok fs1) :
    (upload .fresh req fs).2.stat (filepath_Join [RootDirectory, d]) = some .dir
      ∧ (form.File = [] → (upload .fresh req fs).1.body = "no file") := by
  have hdir : mkdirOutcome form fs = .ok fs1 := by
    rw [(mkdirOutcome_of_lookup form fs d vs hsub).1, hmk]
  have hmade : fs1.stat (filepath_Join [RootDirectory, d]) = some .dir :=
    os_MkdirAll_ok _ _ _ hmk
  rw [upload_valid _ _ _ _ hv, upload_form_ok _ _ _ _ hdir]
  constructor
  · split
    · exact hmade
    · exact rangeFile_dir _ _ _ _ _ hmade
  · intro hnil
    rw [hnil]
    simp only [List.length_nil, if_true]
    rw [fresh_Write_body]

/-- C9 (amended): when a validated request carries two or more file fields, each with a
non-empty name and at most 100 attachments, and every attachment is opened and written
without error, `upload` handles every file field in iteration order: the response body is
the concatenation of one `successful, k files uploaded` message per field, the file tree is
the one left by writing the attachments of all fields, and an attachment of any field whose
destination is not the destination of a later attachment is stored with its own bytes. -/
theorem upload_all_fields (req : Request) (form : MultipartForm) (fs fs1 : FS)
    (hv : passesValidation req form)
    (hdir : mkdirOutcome form fs = .ok fs1)
    (htwo : 2 ≤ form.File.length)
    (hshape : ∀ p ∈ form.File, p.1 ≠ "" ∧ p.2.length ≤ 100)
    (hok : ∀ o ∈ attachmentErrors form.subdir (allFiles form.File) fs1, o = none) :
    (upload .fresh req fs).1.body
        = concatAll (form.File.map (fun p => successMessage p.2.length))
      ∧ (upload .fresh req fs).2 = filesState form.subdir (allFiles form.File) fs1
      ∧ ∀ (pre post : List FileHeader) (g : FileHeader) (src : ReadCloser),
          allFiles form.File = pre ++ g :: post → g.Open = .ok src →
          (∀ f ∈ post, ¬ sameFile (destination form.subdir g.Filename)
            (destination form.subdir f.Filename)) →
          (upload .fresh req fs).2.stat (destination form.subdir g.Filename)
            = some (.file src.data) := by
  have hne : ¬ form.File.length = 0 := by omega
  have hrun : upload .fresh req fs
      = (form.File.foldl (fun w p => w.Write (successMessage p.2.length)) .fresh,
         filesState form.subdir (allFiles form.File) fs1) := by
    rw [upload_valid _ _ _ _ hv, upload_form_ok _ _ _ _ hdir, if_neg hne]
    have h := rangeFile_success form.subdir form.File [] .fresh fs1 hshape hok
    rw [List.append_nil] at h
    rw [h]
    rfl
  rw [hrun]
  refine ⟨?_, rfl, ?_⟩
  · rw [foldl_success_body]
    rfl
  · intro pre post g src hsplit hopen hlater
    simp only
    rw [hsplit]
    apply filesState_stored _ _ _ _ _ _ hopen
    · apply hok
      rw [hsplit, attachmentErrors_append]
      apply List.mem_append_right
      simp [attachmentErrors]
    · intro f hf s _
      exact hlater f hf

theorem rangeFile_body_extends (subdir : String) (fields : List (String × List FileHeader)) :
    ∀ (w : ResponseWriter) (fs : FS),
      ∃ t, (upload_rangeFile subdir fields w fs).1.body = w.body ++ t := by
  induction fields with
  | nil => intro w fs; exact ⟨"", by simp [upload_rangeFile]⟩
  | cons p rest ih =>
    intro w fs
    obtain ⟨key, files⟩ := p
    rw [rangeFile_cons]
    split
    · exact ⟨_, Write_body _ _⟩
    · split
      · exact ⟨_, Write_body _ _⟩
      · split
        · exact ⟨_, Write_body _ _⟩
        · rename_i fs1 _
          obtain ⟨t, ht⟩ := ih (w.Write (successMessage files.length)) fs1
          exact ⟨successMessage files.length ++ t, by rw [ht, Write_body, String.append_assoc]⟩

theorem append_ne_of_firstByte_ne (p a b : String) (h : firstByte a ≠ firstByte b) :
    p ++ a ≠ p ++ b := by
  intro hab
  apply h
  have hd : (p ++ a).data = (p ++ b).data := by rw [hab]
  rw [String.data_append, String.data_append] at hd
  have := List.append_cancel_left hd
  unfold firstByte
  rw [this]

/-- C6 (amended): in a validated request, let a file field with a non-empty name and `n`
attachments be reached after the fields before it went through without error.  If `n` is
at least 101 the response body is the `successful, k files uploaded` messages of the
earlier fields followed by `too many files: n` (exactly that message when the field is the
first one), and the file tree is the one the earlier fields left, so no attachment of the
field is written.  If `n` is at most 100 the response is not that rejection: it continues
with the failure or success message of the field. -/
theorem upload_too_many_files (req : Request) (form : MultipartForm) (fs fs1 : FS)
    (pre post : List (String × List FileHeader)) (key : String) (files : List FileHeader)
    (hv : passesValidation req form)
    (hdir : mkdirOutcome form fs = .ok fs1)
    (hsplit : form.File = pre ++ (key, files) :: post)
    (hshape : ∀ p ∈ pre, p.1 ≠ "" ∧ p.2.length ≤ 100)
    (hok : ∀ o ∈ attachmentErrors form.subdir (allFiles pre) fs1, o = none)
    (hkey : key ≠ "") :
    (101 ≤ files.length →
        (upload .fresh req fs).1.body
            = concatAll (pre.map (fun p => successMessage p.2.length))
                ++ ("too many files: " ++ strconv_FormatInt files.length)
          ∧ (pre = [] → (upload .fresh req fs).1.body
              = "too many files: " ++ strconv_FormatInt files.length)
          ∧ (upload .fresh req fs).2 = filesState form.subdir (allFiles pre) fs1)
      ∧ (files.length ≤ 100 →
        (upload .fresh req fs).1.body
            ≠ concatAll (pre.map (fun p => successMessage p.2.length))
                ++ ("too many files: " ++ strconv_FormatInt files.length)
          ∧ ∃ t, (upload .fresh req fs).1.body
              = concatAll (pre.map (fun p => successMessage p.2.length)) ++ t
            ∧ (firstByte t = some 'u' ∨ firstByte t = some 's')) := by
  have hne : ¬ form.File.length = 0 := by
    rw [hsplit]; simp
  have hrun : upload .fresh req fs
      = upload_rangeFile form.subdir ((key, files) :: post)
          (pre.foldl (fun w p => w.Write (successMessage p.2.length)) .fresh)
          (filesState form.subdir (allFiles pre) fs1) := by
    rw [upload_valid _ _ _ _ hv, upload_form_ok _ _ _ _ hdir, if_neg hne, hsplit]
    exact rangeFile_success form.subdir pre _ .fresh fs1 hshape hok
  have hbody : (pre.foldl (fun w p => w.Write (successMessage p.2.length))
      ResponseWriter.fresh).body = concatAll (pre.map (fun p => successMessage p.2.length)) := by
    rw [foldl_success_body]; rfl
  rw [hrun, rangeFile_cons, if_neg (length_ne_zero_of_ne_empty key hkey)]
  generalize (pre.foldl (fun w p => w.Write (successMessage p.2.length))
    ResponseWriter.fresh) = W at hbody ⊢
  constructor
  · intro hmany
    rw [if_pos (by omega)]
    refine ⟨?_, ?_, rfl⟩
    · simp only [Write_body, hbody]
    · intro hpre
      subst hpre
      simp only [Write_body, hbody]
      rfl
  · intro hfew
    rw [if_neg (by omega)]
    have key2 : ∃ t, (match upload_rangeFiles form.subdir files none
          (filesState form.subdir (allFiles pre) fs1) with
        | (some lastErr, fs1) => (W.Write ("upload failed, last err: " ++ lastErr), fs1)
        | (none, fs1) =>
          upload_rangeFile form.subdir post (W.Write (successMessage files.length)) fs1).1.body
          = concatAll (pre.map (fun p => successMessage p.2.length)) ++ t
        ∧ (firstByte t = some 'u' ∨ firstByte t = some 's') := by
      split
      · rename_i lastErr fs2 _
        exact ⟨"upload failed, last err: " ++ lastErr, by rw [Write_body, hbody], Or.inl rfl⟩
      · rename_i fs2 _
        obtain ⟨t, ht⟩ := rangeFile_body_extends form.subdir post
          (W.Write (successMessage files.length)) fs2
        refine ⟨successMessage files.length ++ t, ?_, Or.inr rfl⟩
        rw [ht, Write_body, hbody, String.append_assoc]
    obtain ⟨t, ht, hfirst⟩ := key2
    refine ⟨?_, t, ht, hfirst⟩
    rw [ht]
    apply append_ne_of_firstByte_ne
    have h3 : firstByte ("too many files: " ++ strconv_FormatInt ↑files.length) = some 't' := rfl
    rw [h3]
    rcases hfirst with h | h <;> rw [h] <;> decide

/-- C10 (amended): in a validated request with one file field (non-empty name, at most 100
attachments) in which some attachment fails and `e` is the error of the last failing one
in attachment order, the response body is `upload failed, last err: ` followed by `e`, and
every attachment that was opened and written without error, before or after a failing one,
is stored at `join(RootDirectory, subdir, filename)` with its own bytes unless a later
attachment that opens has the same destination. -/
theorem upload_partial_failure (req : Request) (form : MultipartForm) (fs fs1 : FS)
    (key : String) (files : List FileHeader) (e : String)
    (hv : passesValidation req form)
    (hdir : mkdirOutcome form fs = .ok fs1)
    (hfile : form.File = [(key, files)]) (hkey : key ≠ "") (hlen : files.length ≤ 100)
    (hfail : (attachmentErrors form.subdir files fs1).reduceOption.getLast? = some e) :
    (upload .fresh req fs).1.body = "upload failed, last err: " ++ e
      ∧ ∀ (pre post : List FileHeader) (g : FileHeader) (src : ReadCloser),
          files = pre ++ g :: post → g.Open = .ok src →
          (upload_attachment form.subdir g (filesState form.subdir pre fs1)).1 = none →
          (∀ f ∈ post, ∀ s, f.Open = .ok s →
            ¬ sameFile (filepath_Join [RootDirectory, form.subdir, g.Filename])
              (filepath_Join [RootDirectory, form.subdir, f.Filename])) →
          (upload .fresh req fs).2.stat (filepath_Join [RootDirectory, form.subdir, g.Filename])
            = some (.file src.data) := by
  have hrun : upload .fresh req fs
      = (ResponseWriter.fresh.Write ("upload failed, last err: " ++ e),
         filesState form.subdir files fs1) := by
    rw [upload_valid _ _ _ _ hv, upload_form_ok _ _ _ _ hdir, hfile]
    simp only [List.length_singleton, one_ne_zero, if_false]
    rw [rangeFile_cons, if_neg (length_ne_zero_of_ne_empty key hkey), if_neg (by omega),
      rangeFiles_none, hfail]
  rw [hrun]
  refine ⟨fresh_Write_body _, ?_⟩
  intro pre post g src hsplit hopen hgood hlater
  simp only
  rw [hsplit]
  exact filesState_stored _ _ _ _ _ _ hopen hgood hlater

/-! ## Claims on download -/

theorem drop_leading_slash (q : String) : String.mk (("/" ++ q).data.drop 1) = q := rfl

theorem download_decoded (req : Request) (fs : FS) (q p : String)
    (huri : req.RequestURI = "/" ++ q) (hfav : req.RequestURI ≠ "/favicon.ico")
    (hdec : url_QueryUnescape q = .ok p) :
    download .fresh req fs =
      match os_Open (filepath_Join [RootDirectory, p]) fs with
      | .error err => some ((ResponseWriter.fresh.WriteHeader 404).Write err)
      | .ok f =>
        let w3 := ((ResponseWriter.fresh.Header_Set "Content-Disposition"
          ("attachment; filename=" ++ q)).Header_Set "Content-Type"
            "application/octet-stream").Header_Set "Content-Length"
              (strconv_FormatInt (match f with | .file data => data.length | .dir => 4096))
        match f with
        | .file data => some (w3.Write data)
        | .dir => some w3 := by
  have hlen : ¬ req.RequestURI.length < 1 := by
    rw [huri, String.length_append]
    have : "/".length = 1 := rfl
    omega
  unfold download
  simp only [hfav, hlen, if_false]
  rw [huri, drop_leading_slash, hdec]
  simp only
  split
  · rfl
  · rename_i f hf
    cases f <;> simp [File_Stat, getContentType_snd]

/-- C3: for a request URI other than `/favicon.ico` whose part after the leading separator
decodes to `p`: when nothing exists at `join(RootDirectory, p)` the response has status 404
and a non-empty body; when a file exists there the body is the stored bytes, Content-Length
is the decimal rendering of the size and Content-Type is `application/octet-stream`. -/
theorem download_missing_or_stored (req : Request) (fs : FS) (q p : String)
    (huri : req.RequestURI = "/" ++ q) (hfav : req.RequestURI ≠ "/favicon.ico")
    (hdec : url_QueryUnescape q = .ok p) :
    (fs.stat (filepath_Join [RootDirectory, p]) = none →
        ∃ w, download .fresh req fs = some w ∧ w.status = 404 ∧ w.body ≠ "")
      ∧ (∀ data : String, fs.stat (filepath_Join [RootDirectory, p]) = some (.file data) →
        ∃ w, download .fresh req fs = some w ∧ w.body = data
          ∧ w.Header_Get "Content-Length" = some (strconv_FormatInt data.length)
          ∧ w.Header_Get "Content-Type" = some "application/octet-stream") := by
  rw [download_decoded req fs q p huri hfav hdec]
  constructor
  · intro hnone
    have hopen : ∃ err, os_Open (filepath_Join [RootDirectory, p]) fs = .error err
        ∧ firstByte err = some 'o' := by
      unfold os_Open
      rw [hnone]
      simp only
      split
      · exact ⟨_, rfl, rfl⟩
      · exact ⟨_, rfl, rfl⟩
    obtain ⟨err, herr, hfirst⟩ := hopen
    rw [herr]
    refine ⟨_, rfl, ?_, ?_⟩
    · simp [ResponseWriter.Write, ResponseWriter.WriteHeader, ResponseWriter.fresh]
    · apply ne_of_firstByte_ne
      have hb : ((ResponseWriter.fresh.WriteHeader 404).Write err).body = err := by
        simp [ResponseWriter.Write, ResponseWriter.WriteHeader, ResponseWriter.fresh]
      rw [hb, hfirst]
      decide
  · intro data hfile
    have hopen : os_Open (filepath_Join [RootDirectory, p]) fs = .ok (.file data) := by
      unfold os_Open
      rw [hfile]
    rw [hopen]
    refine ⟨_, rfl, ?_, ?_, ?_⟩
    · simp [ResponseWriter.Write, ResponseWriter.WriteHeader, ResponseWriter.fresh,
        ResponseWriter.Header_Set]
    · simp [ResponseWriter.Write, ResponseWriter.WriteHeader, ResponseWriter.fresh,
        ResponseWriter.Header_Set, ResponseWriter.Header_Get, List.lookup]
    · simp [ResponseWriter.Write, ResponseWriter.WriteHeader, ResponseWriter.fresh,
        ResponseWriter.Header_Set, ResponseWriter.Header_Get, List.lookup]

/-! ## Upload followed by download -/

theorem upload_form_err (w : ResponseWriter) (form : MultipartForm) (fs : FS) (e : String)
    (hdir : mkdirOutcome form fs = .error e) :
    ∃ msg, upload_form w form fs = (w.Write msg, fs) ∧ firstByte msg = some 'm' := by
  unfold upload_form
  cases h : upload_rangeValue form.Value "" fs with
  | error msg => exact ⟨msg, rfl, rangeValue_error_firstByte _ _ _ _ h⟩
  | ok r =>
    exfalso
    rw [rangeValue_eq _ _ _ form.value_keys] at h
    unfold mkdirOutcome at hdir
    cases hl : List.lookup "subdir" form.Value with
    | none => rw [hl] at hdir; simp at hdir
    | some vs =>
      cases vs with
      | nil => rw [hl] at hdir; simp at hdir
      | cons d t =>
        rw [hl] at hdir h
        simp only at hdir h
        rw [hdir] at h
        simp at h

theorem upload_success_inv (req : Request) (form : MultipartForm) (fs : FS) (key : String)
    (f : FileHeader) (hv : passesValidation req form) (hfile : form.File = [(key, [f])])
    (hsucc : (upload .fresh req fs).1.body = "successful, 1 files uploaded") :
    ∃ fs1, mkdirOutcome form fs = .ok fs1
      ∧ (upload_attachment form.subdir f fs1).1 = none
      ∧ (upload .fresh req fs).2 = (upload_attachment form.subdir f fs1).2 := by
  rw [upload_valid _ _ _ _ hv] at hsucc ⊢
  cases hmk : mkdirOutcome form fs with
  | error e =>
    exfalso
    obtain ⟨msg, hrun, hm⟩ := upload_form_err .fresh form fs e hmk
    rw [hrun, fresh_Write_body] at hsucc
    rw [hsucc] at hm
    revert hm
    decide
  | ok fs1 =>
    refine ⟨fs1, rfl, ?_⟩
    rw [upload_form_ok _ _ _ _ hmk, hfile] at hsucc ⊢
    simp only [List.length_singleton, one_ne_zero, if_false] at hsucc ⊢
    rw [rangeFile_cons] at hsucc ⊢
    by_cases hk : key.length = 0
    · exfalso
      rw [if_pos hk, fresh_Write_body] at hsucc
      revert hsucc
      decide
    · rw [if_neg hk, if_neg (by simp), rangeFiles_none] at hsucc ⊢
      simp only [attachmentErrors, filesState] at hsucc ⊢
      cases ho : (upload_attachment form.subdir f fs1).1 with
      | some e =>
        exfalso
        rw [ho] at hsucc
        simp only [List.reduceOption_cons_of_some, List.reduceOption_nil,
          List.getLast?_singleton] at hsucc
        rw [fresh_Write_body] at hsucc
        have h1 : firstByte ("upload failed, last err: " ++ e) = some 'u' := rfl
        rw [hsucc] at h1
        revert h1
        decide
      | none =>
        refine ⟨rfl, ?_⟩
        simp only [List.reduceOption_cons_of_none, List.reduceOption_nil, List.getLast?_nil]
        rfl

theorem unescapeChars_plain (l : List Char) (hp : '%' ∉ l) (hq : '+' ∉ l) :
    unescapeChars l = .ok l := by
  induction l with
  | nil => rfl
  | cons c rest ih =>
    simp only [List.mem_cons, not_or] at hp hq
    unfold unescapeChars
    rw [if_neg (fun h => hp.1 h.symm), ih hp.2 hq.2]
    simp only
    rw [if_neg (fun h => hq.1 h.symm)]

theorem url_QueryUnescape_plain (s : String) (hp : '%' ∉ s.data) (hq : '+' ∉ s.data) :
    url_QueryUnescape s = .ok s := by
  unfold url_QueryUnescape
  rw [unescapeChars_plain _ hp hq]

theorem Join_subdir_filename (subdir filename : String) :
    filepath_Join [RootDirectory, subdir ++ "/" ++ filename]
      = filepath_Join [RootDirectory, subdir, filename] := by
  rw [RootDirectory_eq]
  simp [filepath_Join, List.dropWhile, strings_Join, String.append_assoc]

theorem not_favicon (q subdir filename : String)
    (hdec : url_QueryUnescape q = .ok (subdir ++ "/" ++ filename)) :
    "/" ++ q ≠ "/favicon.ico" := by
  intro h
  have hq : q = "favicon.ico" := by
    have hd : ("/" ++ q).data = "/favicon.ico".data := by rw [h]
    rw [String.data_append] at hd
    apply String.ext
    have hd2 : "/".data ++ q.data = "/".data ++ "favicon.ico".data := hd
    exact List.append_cancel_left hd2
  subst hq
  have h1 : url_QueryUnescape "favicon.ico" = .ok "favicon.ico" := rfl
  rw [h1] at hdec
  injection hdec with hdec
  have hmem : '/' ∈ "favicon.ico".data := by
    rw [hdec]
    simp [String.data_append]
  revert hmem
  decide

/-- C2 (amended): after a validated upload of a single attachment `F` with bytes `B` to the
subdirectory `D` was answered with `successful, 1 files uploaded`, a download whose request
URI is `/` followed by a string that `url.QueryUnescape` decodes to `D/F` is answered with
status 200 and a body equal to `B`; the string `D/F` itself is such a string when it
contains neither `%` nor `+`. -/
theorem upload_download_roundtrip (req dreq : Request) (form : MultipartForm) (fs : FS)
    (key : String) (f : FileHeader) (src : ReadCloser)
    (hv : passesValidation req form) (hfile : form.File = [(key, [f])])
    (hopen : f.Open = .ok src)
    (hsucc : (upload .fresh req fs).1.body = "successful, 1 files uploaded") :
    (∀ q : String, url_QueryUnescape q = .ok (form.subdir ++ "/" ++ f.Filename) →
        dreq.RequestURI = "/" ++ q →
        ∃ w, download .fresh dreq (upload .fresh req fs).2 = some w
          ∧ w.status = 200 ∧ w.body = src.data)
      ∧ ('%' ∉ (form.subdir ++ "/" ++ f.Filename).data →
          '+' ∉ (form.subdir ++ "/" ++ f.Filename).data →
          dreq.RequestURI = "/" ++ (form.subdir ++ "/" ++ f.Filename) →
          ∃ w, download .fresh dreq (upload .fresh req fs).2 = some w
            ∧ w.status = 200 ∧ w.body = src.data) := by
  have main : ∀ q : String, url_QueryUnescape q = .ok (form.subdir ++ "/" ++ f.Filename) →
      dreq.RequestURI = "/" ++ q →
      ∃ w, download .fresh dreq (upload .fresh req fs).2 = some w
        ∧ w.status = 200 ∧ w.body = src.data := by
    intro q hdec huri
    obtain ⟨fs1, _, hgood, hstate⟩ := upload_success_inv req form fs key f hv hfile hsucc
    have hstored : (upload .fresh req fs).2.stat
        (filepath_Join [RootDirectory, form.subdir ++ "/" ++ f.Filename])
          = some (.file src.data) := by
      rw [Join_subdir_filename, hstate]
      exact attachment_stored _ _ _ _ hopen hgood
    have hfav : dreq.RequestURI ≠ "/favicon.ico" := by
      rw [huri]
      exact not_favicon q _ _ hdec
    rw [download_decoded dreq _ q _ huri hfav hdec]
    have hopen2 : os_Open (filepath_Join [RootDirectory, form.subdir ++ "/" ++ f.Filename])
        (upload .fresh req fs).2 = .ok (.file src.data) := by
      unfold os_Open
      rw [hstored]
    rw [hopen2]
    refine ⟨_, rfl, ?_, ?_⟩
    · simp [ResponseWriter.Write, ResponseWriter.WriteHeader, ResponseWriter.fresh,
        ResponseWriter.Header_Set]
    · simp [ResponseWriter.Write, ResponseWriter.WriteHeader, ResponseWriter.fresh,
        ResponseWriter.Header_Set]
  refine ⟨main, ?_⟩
  intro hp hq huri
  exact main _ (url_QueryUnescape_plain _ hp hq) huri

/-! ## Concrete runs: witnesses and counterexamples -/

theorem upload_single_attachment_stored_witness :
    (upload .fresh pngRequest rootTree).2.stat "public/uploads/zhao/Group 886.png"
        = some (.file "PNGDATA")
      ∧ (upload .fresh pngRequest rootTree).1.body = "successful, 1 files uploaded" :=
  upload_single_attachment_stored pngRequest pngForm rootTree
    (rootTree.put "public/uploads/zhao" .dir)
    ((rootTree.put "public/uploads/zhao" .dir).put "public/uploads/zhao/Group 886.png" (.file ""))
    "file" pngHeader ⟨"PNGDATA", none⟩ ⟨by decide, by decide, rfl⟩ rfl (by decide) rfl rfl rfl rfl


/-- C2 (counterexample): the attachment `100%.txt` is uploaded to `zhao` with success, and
the download of the request URI `/zhao/100%.txt` is answered with the text of a decoding
error instead of the bytes; likewise `a+b.txt` is uploaded with success and the download of
`/zhao/a+b.txt` is answered with status 404, the `+` being decoded to a space. -/
theorem roundtrip_fails_on_escapes :
    (passesValidation (postRequest "multipart/form-data" 300 percentForm) percentForm
      ∧ (upload .fresh (postRequest "multipart/form-data" 300 percentForm) rootTree).1.body
          = "successful, 1 files uploaded"
      ∧ (upload .fresh (postRequest "multipart/form-data" 300 percentForm) rootTree).2.stat
          "public/uploads/zhao/100%.txt" = some (.file "abc")
      ∧ (download .fresh (getRequest ("/" ++ "zhao" ++ "/" ++ "100%.txt"))
          (upload .fresh (postRequest "multipart/form-data" 300 percentForm) rootTree).2).map
            (fun w => w.body)
          = some (escapeError ['%', '.', 't'])
      ∧ escapeError ['%', '.', 't'] ≠ "abc")
    ∧ (passesValidation (postRequest "multipart/form-data" 300 plusForm) plusForm
      ∧ (upload .fresh (postRequest "multipart/form-data" 300 plusForm) rootTree).1.body
          = "successful, 1 files uploaded"
      ∧ (upload .fresh (postRequest "multipart/form-data" 300 plusForm) rootTree).2.stat
          "public/uploads/zhao/a+b.txt" = some (.file "abc")
      ∧ (download .fresh (getRequest ("/" ++ "zhao" ++ "/" ++ "a+b.txt"))
          (upload .fresh (postRequest "multipart/form-data" 300 plusForm) rootTree).2).map
            (fun w => (w.status, w.body))
          = some (404, "open public/uploads/zhao/a b.txt: no such file or directory")) :=
  ⟨⟨⟨by decide, by decide, rfl⟩, by decide, by decide, by decide, by decide⟩,
   ⟨⟨by decide, by decide, rfl⟩, by decide, by decide, by decide⟩⟩

theorem upload_download_roundtrip_witness :
    ∃ w, download .fresh (getRequest "/zhao/Group%20886.png")
        (upload .fresh pngRequest rootTree).2 = some w
      ∧ w.status = 200 ∧ w.body = "PNGDATA" :=
  (upload_download_roundtrip pngRequest (getRequest "/zhao/Group%20886.png") pngForm rootTree
    "file" pngHeader ⟨"PNGDATA", none⟩ ⟨by decide, by decide, rfl⟩ rfl rfl (by decide)).1
    "zhao/Group%20886.png" rfl rfl

theorem download_missing_or_stored_witness :
    (∃ w, download .fresh (getRequest "/zhao/Group%20886.png") rootTree = some w
        ∧ w.status = 404 ∧ w.body ≠ "")
      ∧ (∃ w, download .fresh (getRequest "/zhao/Group%20886.png") pngTree = some w
        ∧ w.body = "PNGDATA"
        ∧ w.Header_Get "Content-Length" = some "7"
        ∧ w.Header_Get "Content-Type" = some "application/octet-stream") :=
  ⟨(download_missing_or_stored (getRequest "/zhao/Group%20886.png") rootTree
      "zhao/Group%20886.png" "zhao/Group 886.png" rfl (by decide) rfl).1 (by decide),
   (download_missing_or_stored (getRequest "/zhao/Group%20886.png") pngTree
      "zhao/Group%20886.png" "zhao/Group 886.png" rfl (by decide) rfl).2 "PNGDATA" (by decide)⟩

theorem upload_rejects_content_type_witness :
    (upload .fresh (postRequest "application/json" 300 pngForm) rootTree).1.body
        = "content-type must be multipart/form-data"
      ∧ (upload .fresh (postRequest "application/json" 300 pngForm) rootTree).2 = rootTree :=
  upload_rejects_content_type (postRequest "application/json" 300 pngForm) rootTree (by decide)

theorem upload_size_check_witness :
    (upload .fresh (postRequest "multipart/form-data" 20971520 pngForm) rootTree).1.body
        = "[E] file to large, length=20971520, limit 20971520"
      ∧ (upload .fresh (postRequest "multipart/form-data" 20971520 pngForm) rootTree).2 = rootTree :=
  ⟨(upload_size_check (postRequest "multipart/form-data" 20971520 pngForm) rootTree
      (by decide)).2.1.2 (by decide),
   ((upload_size_check (postRequest "multipart/form-data" 20971520 pngForm) rootTree
      (by decide)).2.2.1 (by decide)).2.2⟩

/-- C6 (counterexample): the second file field carries 101 attachments and is reached after
the first one went through; the response body is not `too many files: 101` but that message
after the success message of the first field. -/
theorem too_many_files_after_success :
    passesValidation (postRequest "multipart/form-data" 300 crowdedForm) crowdedForm
      ∧ (upload .fresh (postRequest "multipart/form-data" 300 crowdedForm) rootTree).1.body
          = "successful, 1 files uploadedtoo many files: 101"
      ∧ (upload .fresh (postRequest "multipart/form-data" 300 crowdedForm) rootTree).1.body
          ≠ "too many files: 101" :=
  ⟨⟨by decide, by decide, rfl⟩, by decide, by decide⟩

theorem upload_too_many_files_witness :
    (upload .fresh (postRequest "multipart/form-data" 300 crowdedForm) rootTree).1.body
        = "successful, 1 files uploaded" ++ "too many files: 101"
      ∧ (upload .fresh (postRequest "multipart/form-data" 300 crowdedForm) rootTree).2.stat
          "public/uploads/b.txt" = none :=
  have h := (upload_too_many_files (postRequest "multipart/form-data" 300 crowdedForm)
    crowdedForm rootTree rootTree [("a", [goodHeader "a.txt" "aa"])] [] "b"
    (List.replicate 101 (goodHeader "b.txt" "bb")) ⟨by decide, by decide, rfl⟩ rfl rfl
    (by decide) (by decide) (by decide)).1 (by decide)
  ⟨h.1, by rw [h.2.2]; decide⟩

/-- C7 (counterexample): with a file `zhao` in the storage root, a validated request with
`subdir=zhao` is answered with `mkdir fail, public/uploads/zhao` and no directory exists at
that path afterwards; a request of the declared length `MaxFileSize` with the same field is
rejected before any directory is created. -/
theorem subdir_not_created :
    passesValidation (postRequest "multipart/form-data" 300 zhaoOnlyForm) zhaoOnlyForm
      ∧ zhaoOnlyForm.Value.lookup "subdir" = some ["zhao"]
      ∧ (upload .fresh (postRequest "multipart/form-data" 300 zhaoOnlyForm) blockedTree).1.body
          = "mkdir fail, public/uploads/zhao"
      ∧ (upload .fresh (postRequest "multipart/form-data" 300 zhaoOnlyForm) blockedTree).2.stat
          (filepath_Join [RootDirectory, "zhao"]) = some (.file "x")
      ∧ (upload .fresh (postRequest "multipart/form-data" 20971520 zhaoOnlyForm) rootTree).2.stat
          (filepath_Join [RootDirectory, "zhao"]) = none :=
  ⟨⟨by decide, by decide, rfl⟩, by decide, by decide, by decide, by decide⟩

theorem upload_subdir_created_witness :
    (upload .fresh (postRequest "multipart/form-data" 300 dirOnlyForm) rootTree).2.stat
        "public/uploads/a/b" = some .dir
      ∧ (upload .fresh (postRequest "multipart/form-data" 300 dirOnlyForm) rootTree).1.body
          = "no file" :=
  have h := upload_subdir_created (postRequest "multipart/form-data" 300 dirOnlyForm)
    dirOnlyForm rootTree ((rootTree.put "public/uploads/a" .dir).put "public/uploads/a/b" .dir)
    "a/b" [] ⟨by decide, by decide, rfl⟩ rfl rfl
  ⟨h.1, h.2 rfl⟩

/-- C9 (counterexample): a validated request with two file fields, all attachments written
without error; the response body is two success messages, not one, and the attachment of the
second field is on disk. -/
theorem second_field_is_handled :
    passesValidation (postRequest "multipart/form-data" 300 twoFieldForm) twoFieldForm
      ∧ (upload .fresh (postRequest "multipart/form-data" 300 twoFieldForm) rootTree).1.body
          = "successful, 1 files uploadedsuccessful, 1 files uploaded"
      ∧ rootTree.stat "public/uploads/b.txt" = none
      ∧ (upload .fresh (postRequest "multipart/form-data" 300 twoFieldForm) rootTree).2.stat
          "public/uploads/b.txt" = some (.file "bb") :=
  ⟨⟨by decide, by decide, rfl⟩, by decide, by decide, by decide⟩

theorem upload_all_fields_witness :
    (upload .fresh (postRequest "multipart/form-data" 300 twoFieldForm) rootTree).1.body
        = "successful, 1 files uploaded" ++ "successful, 1 files uploaded"
      ∧ (upload .fresh (postRequest "multipart/form-data" 300 twoFieldForm) rootTree).2.stat
          "public/uploads/a.txt" = some (.file "aa") :=
  have h := upload_all_fields (postRequest "multipart/form-data" 300 twoFieldForm)
    twoFieldForm rootTree rootTree ⟨by decide, by decide, rfl⟩ rfl (by decide) (by decide)
    (by decide)
  ⟨h.1, h.2.2 [] [goodHeader "b.txt" "bb"] (goodHeader "a.txt" "aa") ⟨"aa", none⟩ rfl rfl
    (by decide)⟩

/-- C10 (counterexample): one file field with two attachments named `x.txt` and one that
fails to open.  The first attachment is opened and written without error, yet after the
request the file at its destination holds the bytes of the second one. -/
theorem earlier_attachment_overwritten :
    passesValidation (postRequest "multipart/form-data" 300 clashForm) clashForm
      ∧ attachmentErrors "" [goodHeader "x.txt" "one", goodHeader "x.txt" "two",
          badHeader "bad.txt"] rootTree
          = [none, none, some "open /tmp/multipart-1: no such file or directory"]
      ∧ (upload .fresh (postRequest "multipart/form-data" 300 clashForm) rootTree).1.body
          = "upload failed, last err: open /tmp/multipart-1: no such file or directory"
      ∧ (upload .fresh (postRequest "multipart/form-data" 300 clashForm) rootTree).2.stat
          (filepath_Join [RootDirectory, "", "x.txt"]) = some (.file "two") :=
  ⟨⟨by decide, by decide, rfl⟩, by decide, by decide, by decide⟩

theorem upload_partial_failure_witness :
    (upload .fresh (postRequest "multipart/form-data" 300 mixedForm) rootTree).1.body
        = "upload failed, last err: open /tmp/multipart-1: no such file or directory"
      ∧ (upload .fresh (postRequest "multipart/form-data" 300 mixedForm) rootTree).2.stat
          "public/uploads/x.txt" = some (.file "one")
      ∧ (upload .fresh (postRequest "multipart/form-data" 300 mixedForm) rootTree).2.stat
          "public/uploads/y.txt" = some (.file "two") :=
  have h := upload_partial_failure (postRequest "multipart/form-data" 300 mixedForm) mixedForm
    rootTree rootTree "file"
    [goodHeader "x.txt" "one", badHeader "bad.txt", goodHeader "y.txt" "two"]
    "open /tmp/multipart-1: no such file or directory"
    ⟨by decide, by decide, rfl⟩ rfl rfl (by decide) (by decide) (by decide)
  ⟨h.1,
   h.2 [] [badHeader "bad.txt", goodHeader "y.txt" "two"] (goodHeader "x.txt" "one")
     ⟨"one", none⟩ rfl rfl (by decide)
     (by
       intro f hf s hs
       simp only [List.mem_cons, List.mem_singleton, List.not_mem_nil, or_false] at hf
       rcases hf with hf | hf
       · subst hf
         simp [badHeader] at hs
       · subst hf
         decide),
   h.2 [goodHeader "x.txt" "one", badHeader "bad.txt"] [] (goodHeader "y.txt" "two")
     ⟨"two", none⟩ rfl rfl (by decide) (by intro f hf; simp at hf)⟩

end Faceserver
